import Mathlib

/-!
Shallow embedding of `src/main.py` and `server.py` of the
trends.earth-stac repository: a directory scanner that classifies data
files per country, extracts properties from two JSON summary files and
assembles a STAC-like catalog tree.

JSON documents are modelled by `JValue`, the filesystem by `FSEntry`,
Python dictionaries by insertion-ordered association lists, Python
`float`/`int` values by rationals, and fallible Python evaluation
(uncaught `AttributeError`/`TypeError`/`ValueError` and so on) by
`Except String`.
-/

namespace TrendsEarthStac

/-- A JSON value as produced by Python's `json.load` (`None` is `jnull`,
numbers are modelled as rationals, objects keep insertion order). -/
inductive JValue where
  | jnull : JValue
  | jbool : Bool → JValue
  | jnum : ℚ → JValue
  | jstr : String → JValue
  | jarr : List JValue → JValue
  | jobj : List (String × JValue) → JValue

/-- Python truthiness test `not x` (used as `if not summary_data`):
`None`, `False`, `0`, `""`, `[]` and `{}` are falsy. -/
def isFalsy : JValue → Bool
  | .jnull => true
  | .jbool b => !b
  | .jnum q => q == 0
  | .jstr s => s.data.isEmpty
  | .jarr xs => xs.isEmpty
  | .jobj fs => fs.isEmpty

/-- Python `d.get(k, default)` on a dict: the stored value when the key is
present, the default otherwise.  On a non-dict receiver Python raises
`AttributeError`, modelled as `Except.error`. -/
def jget (v : JValue) (k : String) (dflt : JValue) : Except String JValue :=
  match v with
  | .jobj fs => .ok ((fs.lookup k).getD dflt)
  | _ => .error "AttributeError"

/-- Total variant of `jget`, used only to state hypotheses about the value
an intermediate `.get` chain step returns (it agrees with `jget` on dict
receivers). -/
def getD (v : JValue) (k : String) (dflt : JValue) : JValue :=
  match v with
  | .jobj fs => (fs.lookup k).getD dflt
  | _ => dflt

/-- Whether a `JValue` is a JSON object (a Python dict). -/
def isObjB : JValue → Bool
  | .jobj _ => true
  | _ => false

/-- `extract_properties_from_drought_summary` from `src/main.py`: for a
falsy document it returns `{}`; otherwise it builds the fixed property
dict via null-safe `.get` chains. -/
def extract_properties_from_drought_summary (summary_data : JValue) :
    Except String (List (String × JValue)) :=
  if isFalsy summary_data then .ok [] else do
    let idv ← jget summary_data "id" .jnull
    let status ← jget summary_data "status" .jnull
    let startDate ← jget summary_data "start_date" .jnull
    let endDate ← jget summary_data "end_date" .jnull
    let progress ← jget summary_data "progress" .jnull
    let taskName ← jget summary_data "task_name" .jnull
    let script ← jget summary_data "script" (.jobj [])
    let scriptVersion ← jget script "version" .jnull
    let localContext ← jget summary_data "local_context" (.jobj [])
    let areaOfInterest ← jget localContext "area_of_interest_name" .jnull
    let results ← jget summary_data "results" (.jobj [])
    let rdata ← jget results "data" (.jobj [])
    let report ← jget rdata "report" (.jobj [])
    let droughtSummary ← jget report "drought" .jnull
    .ok [("id", idv), ("status", status), ("start_date", startDate),
         ("end_date", endDate), ("progress", progress),
         ("task_name", taskName), ("script_version", scriptVersion),
         ("area_of_interest", areaOfInterest),
         ("drought_summary", droughtSummary)]

/-- Strip leading and trailing whitespace from a character list (the
whitespace stripping Python's `int` performs). -/
def trimChars (cs : List Char) : List Char :=
  ((cs.dropWhile Char.isWhitespace).reverse.dropWhile Char.isWhitespace).reverse

/-- Python `int(s)` on a trimmed, optionally signed decimal string; `none`
models a raised `ValueError`. -/
def pyInt (s : String) : Option ℤ :=
  match trimChars s.toList with
  | '-' :: rest =>
      if rest ≠ [] ∧ rest.all Char.isDigit then
        some (-(rest.foldl (fun a c => a * 10 + (c.toNat - 48)) 0 : ℕ))
      else none
  | '+' :: rest =>
      if rest ≠ [] ∧ rest.all Char.isDigit then
        some ((rest.foldl (fun a c => a * 10 + (c.toNat - 48)) 0 : ℕ))
      else none
  | rest =>
      if rest ≠ [] ∧ rest.all Char.isDigit then
        some ((rest.foldl (fun a c => a * 10 + (c.toNat - 48)) 0 : ℕ))
      else none

/-- Round-half-to-even to an integer, as Python's `round` does on exactly
representable values. -/
def roundHalfEven (q : ℚ) : ℤ :=
  if q - ⌊q⌋ < 1/2 then ⌊q⌋
  else if q - ⌊q⌋ > 1/2 then ⌊q⌋ + 1
  else if ⌊q⌋ % 2 = 0 then ⌊q⌋ else ⌊q⌋ + 1

/-- Python `round(x, 2)`. -/
def pyRound2 (q : ℚ) : ℚ := (roundHalfEven (q * 100) : ℚ) / 100

/-- The numeric payload of a `JValue`; anything else makes Python's
arithmetic (`sum`, `round`) raise `TypeError`. -/
def toNum : JValue → Except String ℚ
  | .jnum q => .ok q
  | _ => .error "TypeError"

/-- Python `sum(classes.values())`: all stored values must be numbers and
the receiver a dict. -/
def sumValues (classes : JValue) : Except String ℚ :=
  match classes with
  | .jobj fs => do
      let qs ← fs.mapM (fun p => toNum p.2)
      .ok (qs.foldl (· + ·) 0)
  | _ => .error "AttributeError"

/-- One iteration of the `for year, classes in values.items()` loop of
`extract_properties_from_sdg_summary`: builds the yearly record. -/
def landCoverRecord (year : String) (classes : JValue) :
    Except String JValue := do
  let total ← sumValues classes
  let waterVal ← jget classes "Water body" (.jnum 0)
  let y ← match pyInt year with
    | some n => Except.ok n
    | none => Except.error "ValueError"
  let wb ← toNum waterVal
  .ok (.jobj [("year", .jnum (y : ℚ)),
              ("total_land_area_km2", .jnum (pyRound2 total)),
              ("water_bodies_km2", .jnum (pyRound2 wb))])

/-- `extract_properties_from_sdg_summary` from `src/main.py`. -/
def extract_properties_from_sdg_summary (summary_data : JValue) :
    Except String (List (String × JValue)) :=
  if isFalsy summary_data then .ok [] else do
    let results ← jget summary_data "results" (.jobj [])
    let rdata ← jget results "data" (.jobj [])
    let report ← jget rdata "report" (.jobj [])
    let landCondition ← jget report "land_condition" (.jobj [])
    let baseline ← jget landCondition "baseline" (.jobj [])
    let landCover ← jget baseline "land_cover" (.jobj [])
    let areasByYear ← jget landCover "land_cover_areas_by_year" (.jobj [])
    let values ← jget areasByYear "values" (.jobj [])
    let landCoverByYear ← match values with
      | .jobj yfs => yfs.mapM (fun p => landCoverRecord p.1 p.2)
      | _ => Except.error "AttributeError"
    let idv ← jget summary_data "id" .jnull
    let status ← jget summary_data "status" .jnull
    let startDate ← jget summary_data "start_date" .jnull
    let endDate ← jget summary_data "end_date" .jnull
    let progress ← jget summary_data "progress" .jnull
    let taskName ← jget summary_data "task_name" .jnull
    let script ← jget summary_data "script" (.jobj [])
    let scriptVersion ← jget script "version" .jnull
    let localContext ← jget summary_data "local_context" (.jobj [])
    let areaOfInterest ← jget localContext "area_of_interest_name" .jnull
    let lcTop ← jget summary_data "land_condition" (.jobj [])
    let baselineTop ← jget lcTop "baseline" (.jobj [])
    let sdg ← jget baselineTop "sdg" (.jobj [])
    let sdgSummary ← jget sdg "summary" (.jobj [])
    .ok [("id", idv), ("status", status), ("start_date", startDate),
         ("end_date", endDate), ("progress", progress),
         ("task_name", taskName), ("script_version", scriptVersion),
         ("area_of_interest", areaOfInterest),
         ("sdg_summary", sdgSummary),
         ("land_cover_by_year", .jarr landCoverByYear)]

/-- The property keys `extract_properties_from_drought_summary` emits. -/
def droughtPropertyKeys : List String :=
  ["id", "status", "start_date", "end_date", "progress", "task_name",
   "script_version", "area_of_interest", "drought_summary"]

/-- The property keys `extract_properties_from_sdg_summary` emits. -/
def sdgPropertyKeys : List String :=
  ["id", "status", "start_date", "end_date", "progress", "task_name",
   "script_version", "area_of_interest", "sdg_summary",
   "land_cover_by_year"]

/-! ### Filesystem model and the directory scan -/

/-- Raw content of a regular file: a parsed JSON document, or `.error ()`
when `json.load` would raise `JSONDecodeError` (also used for non-JSON
data files, whose content the scanner never reads). -/
abbrev FileData := Except Unit JValue

/-- A filesystem entry: a regular file or a directory whose children are
listed in `os.listdir` order (names within one directory are distinct). -/
inductive FSEntry where
  | file : FileData → FSEntry
  | dir : List (String × FSEntry) → FSEntry

/-- The immediate subdirectories of a directory listing, in order. -/
def dirsOf : List (String × FSEntry) → List (String × List (String × FSEntry))
  | [] => []
  | (n, .dir cs) :: rest => (n, cs) :: dirsOf rest
  | (_, .file _) :: rest => dirsOf rest

/-- The names of the regular files of a directory listing, in order. -/
def fileNamesOf : List (String × FSEntry) → List String
  | [] => []
  | (n, .file _) :: rest => n :: fileNamesOf rest
  | (_, .dir _) :: rest => fileNamesOf rest

mutual

/-- `os.walk` restricted to what the scanner consumes: the
`(directory path, filename)` pairs of every regular file of the subtree,
top directory first, then each subdirectory recursively in listing
order. -/
def walkFiles (path : List String) : FSEntry → List (List String × String)
  | .file _ => []
  | .dir children =>
      (fileNamesOf children).map (fun n => (path, n)) ++
        walkFilesList path children

/-- Walk each child entry of a directory in listing order. -/
def walkFilesList (path : List String) :
    List (String × FSEntry) → List (List String × String)
  | [] => []
  | (n, e) :: rest => walkFiles (path ++ [n]) e ++ walkFilesList path rest

end

/-- `os.path.relpath(os.path.join(root, file), start=data_folder)`: the
path components below the data root joined with `/`. -/
def relPath (dirs : List String) (fname : String) : String :=
  String.intercalate "/" (dirs ++ [fname])

/-- Python `pat in s` substring test, over character lists. -/
def subListOf (pat : List Char) : List Char → Bool
  | [] => pat.isEmpty
  | c :: rest => pat.isPrefixOf (c :: rest) || subListOf pat rest

/-- Python `pat in s` on strings. -/
def strContains (s pat : String) : Bool := subListOf pat.toList s.toList

/-- Python `s.startswith(p)`. -/
def strStartsWith (s p : String) : Bool := p.toList.isPrefixOf s.toList

/-- Python `s.endswith(p)`. -/
def strEndsWith (s p : String) : Bool := p.toList.isSuffixOf s.toList

/-- `file.replace('.', '_')`: every dot of the filename becomes an
underscore. -/
def sanitize (s : String) : String :=
  ⟨s.data.map (fun c => if c = '.' then '_' else c)⟩

/-- The fixed drought summary filename. -/
def droughtSummaryName : String := "drought-vulnerability-summary_0.json"

/-- A Python-dict insertion-ordered association list. -/
abbrev AssetMap := List (String × String)

/-- Python `d[k] = v`: replace the value in place when the key exists,
append the pair otherwise. -/
def dinsert (m : AssetMap) (k v : String) : AssetMap :=
  if m.any (fun p => p.1 == k) then
    m.map (fun p => if p.1 == k then (k, v) else p)
  else m ++ [(k, v)]

/-- The classification test of the `if` branch of the walk loop:
`"drought" in file and file != "drought-vulnerability-summary_0.json"`. -/
def droughtCondB (fname : String) : Bool :=
  strContains fname "drought" && fname != droughtSummaryName

/-- The classification test of the `elif` branch:
`"sdg-15-3-1" in file` (only reached when `droughtCondB` fails). -/
def sdgTokenB (fname : String) : Bool := strContains fname "sdg-15-3-1"

/-- The effective condition for a file to land in the SDG bucket: the
`elif` is reached (no drought classification) and the token matches. -/
def sdgCondB (fname : String) : Bool := !droughtCondB fname && sdgTokenB fname

/-- One iteration of the inner classification loop of `scan_data_folder`. -/
def classifyStep (buckets : AssetMap × AssetMap)
    (p : List String × String) : AssetMap × AssetMap :=
  if droughtCondB p.2 then
    (dinsert buckets.1 (sanitize p.2) (relPath p.1 p.2), buckets.2)
  else if sdgTokenB p.2 then
    (buckets.1, dinsert buckets.2 (sanitize p.2) (relPath p.1 p.2))
  else buckets

/-- The classification loop over a walk-ordered file list, starting from
the given buckets. -/
def classifyAux (files : List (List String × String))
    (buckets : AssetMap × AssetMap) : AssetMap × AssetMap :=
  files.foldl classifyStep buckets

/-- `datasets` as built by `scan_data_folder` for one country:
`(drought bucket, sdg-15-3-1 bucket)`. -/
def classifyWalk (files : List (List String × String)) :
    AssetMap × AssetMap :=
  classifyAux files ([], [])

/-- The outcome of `read_summary_json`: missing file (warning logged,
`None` returned), JSON parse failure (error logged, `None` returned), or
the parsed document. -/
inductive ReadOutcome where
  | missing : ReadOutcome
  | parseFailed : ReadOutcome
  | parsed : JValue → ReadOutcome

/-- The document a `ReadOutcome` yields downstream (`None` ↦ `jnull`). -/
def docOf : ReadOutcome → JValue
  | .missing => .jnull
  | .parseFailed => .jnull
  | .parsed v => v

/-- `read_summary_json` from `src/main.py`, applied to the directory
entry at the summary path (`none` when no such path exists).  Opening a
directory raises `IsADirectoryError`, which the code does not catch. -/
def read_summary_json : Option FSEntry → Except String ReadOutcome
  | none => .ok .missing
  | some (.dir _) => .error "IsADirectoryError"
  | some (.file (.error _)) => .ok .parseFailed
  | some (.file (.ok v)) => .ok (.parsed v)

/-- The SDG summary locator: the first name of `os.listdir(country_path)`
with prefix `sdg-15-3-1-summary_` and suffix `.json`. -/
def findSdgSummary (names : List String) : Option String :=
  names.find? (fun n =>
    strStartsWith n "sdg-15-3-1-summary_" && strEndsWith n ".json")

/-- The tuple yielded by `scan_data_folder` for one country. -/
structure CountryRecord where
  country : String
  droughtAssets : AssetMap
  sdgAssets : AssetMap
  droughtProps : List (String × JValue)
  sdgProps : List (String × JValue)

/-- `sdg_summary_data`: read the located SDG summary, or `{}` when no
summary file was found (`read_summary_json(...) if sdg_summary_file_path
else {}`). -/
def readSdgDoc (children : List (String × FSEntry)) : Except String JValue :=
  match findSdgSummary (children.map Prod.fst) with
  | some n => (read_summary_json (children.lookup n)).map docOf
  | none => .ok (.jobj [])

/-- The body of the per-country loop of `scan_data_folder`: locate and
read the two summaries, extract properties, walk and classify the
country subtree. -/
def scanCountry (country : String) (children : List (String × FSEntry)) :
    Except String CountryRecord := do
  let droughtOutcome ← read_summary_json (children.lookup droughtSummaryName)
  let sdgDoc ← readSdgDoc children
  let droughtProps ← extract_properties_from_drought_summary (docOf droughtOutcome)
  let sdgProps ← extract_properties_from_sdg_summary sdgDoc
  .ok ⟨country, (classifyWalk (walkFiles [country] (.dir children))).1,
       (classifyWalk (walkFiles [country] (.dir children))).2,
       droughtProps, sdgProps⟩

/-- `scan_data_folder` from `src/main.py`.  `none` models a non-existent
data root (error logged, empty sequence); a regular file as root makes
`os.walk` yield nothing, so no country is discovered. -/
def scan_data_folder : Option FSEntry → Except String (List CountryRecord)
  | none => .ok []
  | some (.file _) => .ok []
  | some (.dir children) =>
      (dirsOf children).mapM (fun p => scanCountry p.1 p.2)

/-! ### The catalog assembler -/

/-- A STAC item as `create_country_item` builds it: id, properties and
one asset href per asset key. -/
structure StacItem where
  id : String
  properties : List (String × JValue)
  assets : AssetMap

/-- `create_country_item` from `src/main.py` (the `country_name` and
`item_description` parameters are accepted and unused, as in the source;
`properties if properties else {}` maps a falsy dict to `{}`). -/
def create_country_item (country_name : String) (item_id : String)
    (item_description : String) (assets : AssetMap)
    (properties : List (String × JValue)) : StacItem :=
  ⟨item_id, if properties.isEmpty then [] else properties, assets⟩

/-- A STAC collection, restricted to the deterministic fields the claims
concern. -/
structure StacCollection where
  id : String
  description : String
  title : String
  keywords : List String
  items : List StacItem

/-- `create_country_collection` from `src/main.py`. -/
def create_country_collection (country_name : String) : StacCollection :=
  ⟨country_name ++ "-collection",
   "STAC Collection for " ++ country_name ++ " datasets",
   country_name ++ " Datasets",
   ["Land Degradation", "Drought", "SDG 15.3.1", country_name],
   []⟩

/-- The per-country body of `main`: build the collection and add the
drought item and then the SDG item when their buckets are non-empty. -/
def buildCollection (r : CountryRecord) : StacCollection :=
  { create_country_collection r.country with
    items :=
      (if r.droughtAssets.isEmpty then [] else
        [create_country_item r.country (r.country ++ "_drought")
          ("STAC Item for " ++ r.country ++ " Drought Dataset")
          r.droughtAssets r.droughtProps]) ++
      (if r.sdgAssets.isEmpty then [] else
        [create_country_item r.country (r.country ++ "_sdg_15_3_1")
          ("STAC Item for " ++ r.country ++ " SDG 15.3.1 Dataset")
          r.sdgAssets r.sdgProps]) }

/-- The root catalog with its children, as assembled by `main`. -/
structure StacCatalog where
  id : String
  title : String
  collections : List StacCollection

/-- `create_root_catalog` from `src/main.py` (the `conformsTo` list and
description are constants irrelevant to the claims). -/
def create_root_catalog : StacCatalog :=
  ⟨"trends-earth-catalog", "Trends.Earth STAC API", []⟩

/-- `main` from `src/main.py`, up to serialization: consume the scan and
attach one collection per yielded country record. -/
def mainRun (root : Option FSEntry) : Except String StacCatalog := do
  let records ← scan_data_folder root
  .ok { create_root_catalog with collections := records.map buildCollection }

/-! ### Well-typedness of summary documents

The Python extractors traverse nested `.get` chains and a year loop;
they raise when a *present* intermediate field is not a dict (or a class
area is not a number, or a year key is not an integer literal).  The
predicates below say that every such present field has the type the code
expects — they say nothing about which keys are present. -/

/-- Whether a `JValue` is a JSON number. -/
def isNumB : JValue → Bool
  | .jnum _ => true
  | _ => false

/-- All class areas of one year entry are numbers (and the entry is a
dict, as `classes.values()` and `classes.get` require). -/
def wellTypedYear (classes : JValue) : Bool :=
  match classes with
  | .jobj cfs => cfs.all (fun p => isNumB p.2)
  | _ => false

/-- The `values` mapping is a dict of year entries whose keys parse as
integers. -/
def wellTypedValues (values : JValue) : Bool :=
  match values with
  | .jobj yfs => yfs.all (fun p => (pyInt p.1).isSome && wellTypedYear p.2)
  | _ => false

/-- Every intermediate field `extract_properties_from_drought_summary`
calls `.get` on is a dict (when present; `getD` supplies `{}` when
absent). -/
def wellTypedDrought (d : JValue) : Bool :=
  isObjB (getD d "script" (.jobj [])) &&
  isObjB (getD d "local_context" (.jobj [])) &&
  isObjB (getD d "results" (.jobj [])) &&
  isObjB (getD (getD d "results" (.jobj [])) "data" (.jobj [])) &&
  isObjB (getD (getD (getD d "results" (.jobj [])) "data" (.jobj []))
    "report" (.jobj []))

/-- The `results.data.report` object of a summary document (with the
`{}` defaults the code uses). -/
def reportOf (d : JValue) : JValue :=
  getD (getD (getD d "results" (.jobj [])) "data" (.jobj [])) "report" (.jobj [])

/-- The `report.land_condition.baseline` object of an SDG summary. -/
def sdgBaseline (d : JValue) : JValue :=
  getD (getD (reportOf d) "land_condition" (.jobj [])) "baseline" (.jobj [])

/-- Every intermediate field `extract_properties_from_sdg_summary` calls
`.get` on is a dict, and the year/class data is well formed. -/
def wellTypedSdg (d : JValue) : Bool :=
  wellTypedDrought d &&
  isObjB (getD (reportOf d) "land_condition" (.jobj [])) &&
  isObjB (sdgBaseline d) &&
  isObjB (getD (sdgBaseline d) "land_cover" (.jobj [])) &&
  isObjB (getD (getD (sdgBaseline d) "land_cover" (.jobj []))
    "land_cover_areas_by_year" (.jobj [])) &&
  wellTypedValues (getD (getD (getD (sdgBaseline d) "land_cover" (.jobj []))
    "land_cover_areas_by_year" (.jobj [])) "values" (.jobj [])) &&
  isObjB (getD d "land_condition" (.jobj [])) &&
  isObjB (getD (getD d "land_condition" (.jobj [])) "baseline" (.jobj [])) &&
  isObjB (getD (getD (getD d "land_condition" (.jobj [])) "baseline" (.jobj []))
    "sdg" (.jobj []))

/-! ### Concrete fixtures used by counterexamples and witnesses -/

/-- A country directory whose only file is the (located) SDG summary. -/
def sdgSummaryOnlyCountry : List (String × FSEntry) :=
  [("sdg-15-3-1-summary_0.json", .file (.ok (.jobj [])))]

/-- A country directory whose only file has both classification tokens in
its name. -/
def bothTokensCountry : List (String × FSEntry) :=
  [("sdg-15-3-1-drought.tif", .file (.error ()))]

/-- A country directory with a malformed drought summary next to one
drought data file. -/
def malformedSummaryCountry : List (String × FSEntry) :=
  [("drought-vulnerability-summary_0.json", .file (.error ())),
   ("drought.tif", .file (.error ()))]

/-- A data root with two countries, the first of which has a malformed
drought summary. -/
def malformedSummaryRoot : FSEntry :=
  .dir [("Kenya", .dir malformedSummaryCountry),
        ("Uganda", .dir [("drought-map.tif", .file (.error ()))])]

/-- A data-root listing with two countries, the second of which is
empty. -/
def twoCountryChildren : List (String × FSEntry) :=
  [("Kenya", .dir [("drought.tif", .file (.error ()))]),
   ("Uganda", .dir [])]

/-- The land-cover-by-year document of the spec's aggregation example. -/
def landCoverExampleDoc : JValue :=
  .jobj [("results", .jobj [("data", .jobj [("report", .jobj [("land_condition",
    .jobj [("baseline", .jobj [("land_cover", .jobj [("land_cover_areas_by_year",
    .jobj [("values", .jobj [
      ("2020", .jobj [("Forest", .jnum 10), ("Water body", .jnum (5/2))]),
      ("2021", .jobj [("Forest", .jnum 12)])])])])])])])])])]

/-! ## Helper lemmas -/

theorem ok_bind {ε α β : Type} (a : α) (f : α → Except ε β) :
    (Except.ok a >>= f) = f a := rfl

theorem except_bind_ok {ε α β : Type} {x : Except ε α} {f : α → Except ε β}
    {b : β} (h : (x >>= f) = .ok b) : ∃ a, x = .ok a ∧ f a = .ok b := by
  cases x with
  | ok a => exact ⟨a, rfl, h⟩
  | error e => exact Except.noConfusion h

theorem mapM_ok_forall₂ {ε α β : Type} {f : α → Except ε β} :
    ∀ {l : List α} {bs : List β}, l.mapM f = .ok bs →
      List.Forall₂ (fun a b => f a = .ok b) l bs := by
  intro l
  induction l with
  | nil =>
      intro bs h
      rw [List.mapM_nil] at h
      cases h
      exact .nil
  | cons a t ih =>
      intro bs h
      rw [List.mapM_cons] at h
      obtain ⟨b, hb, h⟩ := except_bind_ok h
      obtain ⟨ts, hts, h⟩ := except_bind_ok h
      cases h
      exact .cons hb (ih hts)

theorem mapM_ok_exists {ε α β : Type} {f : α → Except ε β} :
    ∀ {l : List α}, (∀ a ∈ l, ∃ b, f a = .ok b) →
      ∃ bs, l.mapM f = .ok bs := by
  intro l
  induction l with
  | nil => exact fun _ => ⟨[], rfl⟩
  | cons a t ih =>
      intro h
      obtain ⟨b, hb⟩ := h a (List.mem_cons_self a t)
      obtain ⟨bs, hbs⟩ := ih (fun x hx => h x (List.mem_cons_of_mem a hx))
      refine ⟨b :: bs, ?_⟩
      rw [List.mapM_cons, hb, ok_bind, hbs, ok_bind]
      rfl

theorem forall₂_map_eq {α β γ : Type} {R : α → β → Prop} {g : β → γ}
    {h : α → γ} : ∀ {l : List α} {bs : List β}, List.Forall₂ R l bs →
      (∀ a b, R a b → g b = h a) → bs.map g = l.map h := by
  intro l bs hf hgh
  induction hf with
  | nil => rfl
  | cons hr _ ih => simp [List.map_cons, hgh _ _ hr, ih]

theorem isObjB_iff {v : JValue} : isObjB v = true ↔ ∃ fs, v = .jobj fs := by
  cases v <;> simp [isObjB]

theorem roundHalfEven_intCast (n : ℤ) : roundHalfEven ((n : ℚ)) = n := by
  unfold roundHalfEven
  rw [Int.floor_intCast]
  norm_num

theorem pyRound2_eq (q : ℚ) (n : ℤ) (h : q * 100 = (n : ℚ)) :
    pyRound2 q = (n : ℚ) / 100 := by
  rw [pyRound2, h, roundHalfEven_intCast]

theorem isEmpty_false_of_ne {α : Type} {l : List α} (h : l ≠ []) :
    l.isEmpty = false := by
  cases l with
  | nil => exact absurd rfl h
  | cons a t => rfl

theorem isNumB_iff {v : JValue} : isNumB v = true ↔ ∃ q, v = .jnum q := by
  cases v <;> simp [isNumB]

/-- Evaluation of the drought extractor on a non-empty object document
whose present intermediate fields are objects. -/
theorem extract_drought_eval (fs sfs lfs rfs dfs rpfs :
      List (String × JValue))
    (h0 : fs.isEmpty = false)
    (hs : getD (.jobj fs) "script" (.jobj []) = .jobj sfs)
    (hl : getD (.jobj fs) "local_context" (.jobj []) = .jobj lfs)
    (hr : getD (.jobj fs) "results" (.jobj []) = .jobj rfs)
    (hd : getD (.jobj rfs) "data" (.jobj []) = .jobj dfs)
    (hp : getD (.jobj dfs) "report" (.jobj []) = .jobj rpfs) :
    extract_properties_from_drought_summary (.jobj fs) = .ok
      [("id", getD (.jobj fs) "id" .jnull),
       ("status", getD (.jobj fs) "status" .jnull),
       ("start_date", getD (.jobj fs) "start_date" .jnull),
       ("end_date", getD (.jobj fs) "end_date" .jnull),
       ("progress", getD (.jobj fs) "progress" .jnull),
       ("task_name", getD (.jobj fs) "task_name" .jnull),
       ("script_version", getD (.jobj sfs) "version" .jnull),
       ("area_of_interest", getD (.jobj lfs) "area_of_interest_name" .jnull),
       ("drought_summary", getD (.jobj rpfs) "drought" .jnull)] := by
  have hfal : isFalsy (JValue.jobj fs) = false := h0
  simp only [getD] at hs hl hr hd hp
  simp only [extract_properties_from_drought_summary, hfal,
    Bool.false_eq_true, if_false, jget, ok_bind, hs, hl, hr, hd, hp, getD]

/-- Evaluation of the SDG extractor on a non-empty object document whose
present intermediate fields are objects and whose per-year loop
succeeds. -/
theorem extract_sdg_eval (fs rfs dfs rpfs lcfs blfs cvfs abfs yfs sfs lfs
      tlcfs tblfs sgfs : List (String × JValue)) (recs : List JValue)
    (h0 : fs.isEmpty = false)
    (hr : getD (.jobj fs) "results" (.jobj []) = .jobj rfs)
    (hd : getD (.jobj rfs) "data" (.jobj []) = .jobj dfs)
    (hp : getD (.jobj dfs) "report" (.jobj []) = .jobj rpfs)
    (hlc : getD (.jobj rpfs) "land_condition" (.jobj []) = .jobj lcfs)
    (hbl : getD (.jobj lcfs) "baseline" (.jobj []) = .jobj blfs)
    (hcov : getD (.jobj blfs) "land_cover" (.jobj []) = .jobj cvfs)
    (hab : getD (.jobj cvfs) "land_cover_areas_by_year" (.jobj []) = .jobj abfs)
    (hv : getD (.jobj abfs) "values" (.jobj []) = .jobj yfs)
    (hm : yfs.mapM (fun p => landCoverRecord p.1 p.2) = .ok recs)
    (hs : getD (.jobj fs) "script" (.jobj []) = .jobj sfs)
    (hl : getD (.jobj fs) "local_context" (.jobj []) = .jobj lfs)
    (htlc : getD (.jobj fs) "land_condition" (.jobj []) = .jobj tlcfs)
    (htbl : getD (.jobj tlcfs) "baseline" (.jobj []) = .jobj tblfs)
    (htsdg : getD (.jobj tblfs) "sdg" (.jobj []) = .jobj sgfs) :
    extract_properties_from_sdg_summary (.jobj fs) = .ok
      [("id", getD (.jobj fs) "id" .jnull),
       ("status", getD (.jobj fs) "status" .jnull),
       ("start_date", getD (.jobj fs) "start_date" .jnull),
       ("end_date", getD (.jobj fs) "end_date" .jnull),
       ("progress", getD (.jobj fs) "progress" .jnull),
       ("task_name", getD (.jobj fs) "task_name" .jnull),
       ("script_version", getD (.jobj sfs) "version" .jnull),
       ("area_of_interest", getD (.jobj lfs) "area_of_interest_name" .jnull),
       ("sdg_summary", getD (.jobj sgfs) "summary" (.jobj [])),
       ("land_cover_by_year", .jarr recs)] := by
  have hfal : isFalsy (JValue.jobj fs) = false := h0
  simp only [getD] at hr hd hp hlc hbl hcov hab hv hs hl htlc htbl htsdg
  simp only [extract_properties_from_sdg_summary, hfal,
    Bool.false_eq_true, if_false, jget, ok_bind, hr, hd, hp, hlc, hbl,
    hcov, hab, hv, hm, hs, hl, htlc, htbl, htsdg, getD]

theorem all_num_lookup {cfs : List (String × JValue)} {k : String}
    (h : cfs.all (fun p => isNumB p.2) = true) :
    isNumB ((cfs.lookup k).getD (.jnum 0)) = true := by
  induction cfs with
  | nil => rfl
  | cons p t ih =>
      rw [List.all_cons, Bool.and_eq_true] at h
      cases hk : k == p.1 with
      | true => simp [List.lookup, hk, h.1]
      | false =>
          simp only [List.lookup, hk]
          exact ih h.2

theorem all_num_mapM {cfs : List (String × JValue)}
    (h : cfs.all (fun p => isNumB p.2) = true) :
    ∃ qs, cfs.mapM (fun p => toNum p.2) = .ok qs := by
  apply mapM_ok_exists
  intro p hp
  rw [List.all_eq_true] at h
  obtain ⟨q, hq⟩ := isNumB_iff.mp (h p hp)
  exact ⟨q, by rw [hq]; rfl⟩

theorem landCoverRecord_ok (year : String) (classes : JValue)
    (h1 : (pyInt year).isSome = true) (h2 : wellTypedYear classes = true) :
    ∃ v, landCoverRecord year classes = .ok v := by
  cases classes with
  | jobj cfs =>
      obtain ⟨qs, hqs⟩ := all_num_mapM (h2 : cfs.all (fun p => isNumB p.2) = true)
      obtain ⟨w, hw⟩ := isNumB_iff.mp (all_num_lookup (k := "Water body") h2)
      obtain ⟨n, hn⟩ := Option.isSome_iff_exists.mp h1
      refine ⟨.jobj [("year", .jnum (n : ℚ)),
        ("total_land_area_km2", .jnum (pyRound2 (qs.foldl (· + ·) 0))),
        ("water_bodies_km2", .jnum (pyRound2 w))], ?_⟩
      simp only [landCoverRecord, sumValues]
      rw [hqs]
      simp only [ok_bind, jget, hw, hn, toNum]
  | jnull => exact absurd h2 (by simp [wellTypedYear])
  | jbool b => exact absurd h2 (by simp [wellTypedYear])
  | jnum q => exact absurd h2 (by simp [wellTypedYear])
  | jstr s => exact absurd h2 (by simp [wellTypedYear])
  | jarr xs => exact absurd h2 (by simp [wellTypedYear])

/-- C1: falsy documents yield `{}` (not the full key set — see the
counterexample); a non-empty well-typed object document always extracts
successfully with exactly the fixed key set, missing keys included. -/
theorem claim_C1_extraction_total :
    (∀ d, isFalsy d = true →
      extract_properties_from_drought_summary d = .ok [] ∧
      extract_properties_from_sdg_summary d = .ok []) ∧
    (∀ fs, fs ≠ [] → wellTypedDrought (.jobj fs) = true →
      ∃ props, extract_properties_from_drought_summary (.jobj fs) = .ok props ∧
        props.map Prod.fst = droughtPropertyKeys) ∧
    (∀ fs, fs ≠ [] → wellTypedSdg (.jobj fs) = true →
      ∃ props, extract_properties_from_sdg_summary (.jobj fs) = .ok props ∧
        props.map Prod.fst = sdgPropertyKeys) := by
  refine ⟨?_, ?_, ?_⟩
  · intro d h
    constructor
    · simp [extract_properties_from_drought_summary, h]
    · simp [extract_properties_from_sdg_summary, h]
  · intro fs hne hw
    simp only [wellTypedDrought, Bool.and_eq_true] at hw
    obtain ⟨⟨⟨⟨h1, h2⟩, h3⟩, h4⟩, h5⟩ := hw
    obtain ⟨sfs, hs⟩ := isObjB_iff.mp h1
    obtain ⟨lfs, hl⟩ := isObjB_iff.mp h2
    obtain ⟨rfs, hr⟩ := isObjB_iff.mp h3
    rw [hr] at h4 h5
    obtain ⟨dfs, hd⟩ := isObjB_iff.mp h4
    rw [hd] at h5
    obtain ⟨rpfs, hp⟩ := isObjB_iff.mp h5
    exact ⟨_, extract_drought_eval fs sfs lfs rfs dfs rpfs
      (isEmpty_false_of_ne hne) hs hl hr hd hp, rfl⟩
  · intro fs hne hw
    simp only [wellTypedSdg, wellTypedDrought, reportOf, sdgBaseline,
      Bool.and_eq_true] at hw
    obtain ⟨⟨⟨⟨⟨⟨⟨⟨⟨⟨⟨⟨h1, h2⟩, h3⟩, h4⟩, h5⟩, h6⟩, h7⟩, h8⟩, h9⟩, hv⟩,
      h10⟩, h11⟩, h12⟩ := hw
    obtain ⟨sfs, hs⟩ := isObjB_iff.mp h1
    obtain ⟨lfs, hl⟩ := isObjB_iff.mp h2
    obtain ⟨rfs, hr⟩ := isObjB_iff.mp h3
    rw [hr] at h4 h5 h6 h7 h8 h9 hv
    obtain ⟨dfs, hd⟩ := isObjB_iff.mp h4
    rw [hd] at h5 h6 h7 h8 h9 hv
    obtain ⟨rpfs, hp⟩ := isObjB_iff.mp h5
    rw [hp] at h6 h7 h8 h9 hv
    obtain ⟨lcfs, hlc⟩ := isObjB_iff.mp h6
    rw [hlc] at h7 h8 h9 hv
    obtain ⟨blfs, hbl⟩ := isObjB_iff.mp h7
    rw [hbl] at h8 h9 hv
    obtain ⟨cvfs, hcov⟩ := isObjB_iff.mp h8
    rw [hcov] at h9 hv
    obtain ⟨abfs, hab⟩ := isObjB_iff.mp h9
    rw [hab] at hv
    obtain ⟨tlcfs, htlc⟩ := isObjB_iff.mp h10
    rw [htlc] at h11 h12
    obtain ⟨tblfs, htbl⟩ := isObjB_iff.mp h11
    rw [htbl] at h12
    obtain ⟨sgfs, htsdg⟩ := isObjB_iff.mp h12
    have hvB : ∃ yfs, getD (.jobj abfs) "values" (.jobj []) = .jobj yfs := by
      cases hV : getD (.jobj abfs) "values" (.jobj []) with
      | jobj yfs => exact ⟨yfs, rfl⟩
      | jnull => rw [hV] at hv; exact absurd hv (by simp [wellTypedValues])
      | jbool b => rw [hV] at hv; exact absurd hv (by simp [wellTypedValues])
      | jnum q => rw [hV] at hv; exact absurd hv (by simp [wellTypedValues])
      | jstr s => rw [hV] at hv; exact absurd hv (by simp [wellTypedValues])
      | jarr xs => rw [hV] at hv; exact absurd hv (by simp [wellTypedValues])
    obtain ⟨yfs, hvy⟩ := hvB
    rw [hvy] at hv
    have hrecs : ∃ recs, yfs.mapM (fun p => landCoverRecord p.1 p.2) = .ok recs := by
      apply mapM_ok_exists
      intro p hp2
      have hall : yfs.all (fun q => (pyInt q.1).isSome && wellTypedYear q.2) = true := by
        simpa only [wellTypedValues] using hv
      have hpp := List.all_eq_true.mp hall p hp2
      rw [Bool.and_eq_true] at hpp
      exact landCoverRecord_ok p.1 p.2 hpp.1 hpp.2
    obtain ⟨recs, hm⟩ := hrecs
    exact ⟨_, extract_sdg_eval fs rfs dfs rpfs lcfs blfs cvfs abfs yfs sfs
      lfs tlcfs tblfs sgfs recs (isEmpty_false_of_ne hne) hr hd hp hlc hbl
      hcov hab hvy hm hs hl htlc htbl htsdg, rfl⟩

/-- C1 witness: the amended theorem applied to the null document and to a
one-field object document with every summary key missing. -/
theorem claim_C1_extraction_total_witness :
    (extract_properties_from_drought_summary .jnull = .ok [] ∧
      extract_properties_from_sdg_summary .jnull = .ok []) ∧
    (∃ props,
      extract_properties_from_drought_summary (.jobj [("x", .jstr "y")]) =
        .ok props ∧ props.map Prod.fst = droughtPropertyKeys) ∧
    (∃ props,
      extract_properties_from_sdg_summary (.jobj [("x", .jstr "y")]) =
        .ok props ∧ props.map Prod.fst = sdgPropertyKeys) :=
  ⟨claim_C1_extraction_total.1 .jnull rfl,
   claim_C1_extraction_total.2.1 [("x", .jstr "y")] (by simp) rfl,
   claim_C1_extraction_total.2.2 [("x", .jstr "y")] (by simp) rfl⟩

/-- C1 counterexample: on the empty document both extractors return the
empty mapping, which does not carry the fixed key sets the claim
promises for every input. -/
theorem claim_C1_counterexample :
    extract_properties_from_drought_summary (.jobj []) = .ok [] ∧
    extract_properties_from_sdg_summary (.jobj []) = .ok [] ∧
    ([] : List (String × JValue)).map Prod.fst ≠ droughtPropertyKeys ∧
    ([] : List (String × JValue)).map Prod.fst ≠ sdgPropertyKeys :=
  ⟨rfl, rfl, by simp [droughtPropertyKeys], by simp [sdgPropertyKeys]⟩

/-- C6: on the spec's example document the SDG extractor emits exactly
two yearly records, with the year total summed over all classes, the
water-body area defaulting to zero, and both rounded to 2 decimals. -/
theorem claim_C6_land_cover_aggregation :
    extract_properties_from_sdg_summary landCoverExampleDoc = .ok
      [("id", .jnull), ("status", .jnull), ("start_date", .jnull),
       ("end_date", .jnull), ("progress", .jnull), ("task_name", .jnull),
       ("script_version", .jnull), ("area_of_interest", .jnull),
       ("sdg_summary", .jobj []),
       ("land_cover_by_year", .jarr [
         .jobj [("year", .jnum 2020),
                ("total_land_area_km2", .jnum (25/2)),
                ("water_bodies_km2", .jnum (5/2))],
         .jobj [("year", .jnum 2021),
                ("total_land_area_km2", .jnum 12),
                ("water_bodies_km2", .jnum 0)]])] := by
  have h0 : extract_properties_from_sdg_summary landCoverExampleDoc = .ok
      [("id", .jnull), ("status", .jnull), ("start_date", .jnull),
       ("end_date", .jnull), ("progress", .jnull), ("task_name", .jnull),
       ("script_version", .jnull), ("area_of_interest", .jnull),
       ("sdg_summary", .jobj []),
       ("land_cover_by_year", .jarr [
         .jobj [("year", .jnum ((2020 : ℤ) : ℚ)),
                ("total_land_area_km2", .jnum (pyRound2 (0 + 10 + 5/2))),
                ("water_bodies_km2", .jnum (pyRound2 (5/2)))],
         .jobj [("year", .jnum ((2021 : ℤ) : ℚ)),
                ("total_land_area_km2", .jnum (pyRound2 (0 + 12))),
                ("water_bodies_km2", .jnum (pyRound2 0))]])] := rfl
  have e1 : ((2020 : ℤ) : ℚ) = 2020 := by norm_num
  have e2 : ((2021 : ℤ) : ℚ) = 2021 := by norm_num
  have e3 : pyRound2 (0 + 10 + 5/2 : ℚ) = 25/2 := by
    rw [pyRound2_eq (0 + 10 + 5/2 : ℚ) 1250 (by norm_num)]; norm_num
  have e4 : pyRound2 ((5 : ℚ)/2) = 5/2 := by
    rw [pyRound2_eq ((5 : ℚ)/2) 250 (by norm_num)]; norm_num
  have e5 : pyRound2 (0 + 12 : ℚ) = 12 := by
    rw [pyRound2_eq (0 + 12 : ℚ) 1200 (by norm_num)]; norm_num
  have e6 : pyRound2 (0 : ℚ) = 0 := by
    rw [pyRound2_eq (0 : ℚ) 0 (by norm_num)]; norm_num
  rw [h0, e1, e2, e3, e4, e5, e6]

/-! ## Dictionary-insertion and classification lemmas -/

theorem dinsert_ne_nil {m : AssetMap} {k v : String} : dinsert m k v ≠ [] := by
  unfold dinsert
  split
  next h =>
    intro hc
    rw [List.map_eq_nil] at hc
    rw [hc] at h
    simp at h
  next h =>
    intro hc
    simp at hc

theorem keys_dinsert (m : AssetMap) (k v : String) :
    (dinsert m k v).map Prod.fst =
      if m.any (fun p => p.1 == k) then m.map Prod.fst
      else m.map Prod.fst ++ [k] := by
  unfold dinsert
  split
  next h =>
    rw [List.map_map]
    apply List.map_congr_left
    intro p _
    cases hpk : (p.1 == k) with
    | true =>
        simp only [Function.comp, hpk, if_pos]
        exact (eq_of_beq hpk).symm
    | false => simp [Function.comp, hpk]
  next h =>
    rw [List.map_append]
    rfl

theorem self_mem_keys_dinsert (m : AssetMap) (k v : String) :
    k ∈ (dinsert m k v).map Prod.fst := by
  rw [keys_dinsert]
  split
  next h =>
    rw [List.any_eq_true] at h
    obtain ⟨q, hq, hqk⟩ := h
    exact List.mem_map.mpr ⟨q, hq, eq_of_beq hqk⟩
  next h => simp

theorem mem_keys_dinsert {m : AssetMap} {x : String} (k v : String)
    (h : x ∈ m.map Prod.fst) : x ∈ (dinsert m k v).map Prod.fst := by
  rw [keys_dinsert]
  split
  · exact h
  · exact List.mem_append.mpr (Or.inl h)

theorem nodup_keys_dinsert {m : AssetMap} (k v : String)
    (h : (m.map Prod.fst).Nodup) : ((dinsert m k v).map Prod.fst).Nodup := by
  rw [keys_dinsert]
  split
  next => exact h
  next hc =>
    have hk : k ∉ m.map Prod.fst := by
      intro hmem
      apply hc
      rw [List.any_eq_true]
      obtain ⟨p, hp, hpk⟩ := List.mem_map.mp hmem
      exact ⟨p, hp, by simp [hpk]⟩
    simp [List.nodup_append, h, hk]

theorem lookup_dinsert (m : AssetMap) (k v : String) :
    (dinsert m k v).lookup k = some v := by
  unfold dinsert
  split
  next h =>
    induction m with
    | nil => simp at h
    | cons p t ih =>
        rw [List.map_cons]
        cases hpk : (p.1 == k) with
        | true => simp [List.lookup]
        | false =>
            rw [if_neg (by simp)]
            have hkb : (k == p.1) = false := by
              rw [beq_eq_false_iff_ne] at hpk ⊢
              exact Ne.symm hpk
            have ht : t.any (fun q => q.1 == k) = true := by
              simpa [List.any_cons, hpk] using h
            simpa [List.lookup, hkb] using ih ht
  next h =>
    induction m with
    | nil => simp [List.lookup]
    | cons p t ih =>
        have hpk : (p.1 == k) = false := by
          cases hB : (p.1 == k) with
          | false => rfl
          | true => exact absurd (by simp [List.any_cons, hB]) h
        have hkb : (k == p.1) = false := by
          rw [beq_eq_false_iff_ne] at hpk ⊢
          exact Ne.symm hpk
        have ht : ¬t.any (fun q => q.1 == k) = true := by
          intro hc
          exact h (by simp [List.any_cons, hc])
        simpa [List.lookup, hkb] using ih ht

theorem lookup_isSome_iff (m : AssetMap) (k : String) :
    (m.lookup k).isSome = true ↔ k ∈ m.map Prod.fst := by
  induction m with
  | nil => simp [List.lookup]
  | cons p t ih =>
      by_cases hk : k = p.1
      · simp [List.lookup, hk]
      · have hkb : (k == p.1) = false := by simp [hk]
        simp [List.lookup, hkb, ih, hk]

theorem classifyAux_cons (p : List String × String)
    (files : List (List String × String)) (b : AssetMap × AssetMap) :
    classifyAux (p :: files) b = classifyAux files (classifyStep b p) := rfl

theorem classifyAux_fst_eq_nil_iff :
    ∀ (files : List (List String × String)) (b : AssetMap × AssetMap),
      (classifyAux files b).1 = [] ↔
        b.1 = [] ∧ ∀ p ∈ files, droughtCondB p.2 = false := by
  intro files
  induction files with
  | nil => intro b; simp [classifyAux]
  | cons p t ih =>
      intro b
      rw [classifyAux_cons, ih]
      by_cases hd : droughtCondB p.2 = true
      · simp [classifyStep, hd, dinsert_ne_nil, List.forall_mem_cons]
      · by_cases hs : sdgTokenB p.2 = true
        · simp [classifyStep, hd, hs, List.forall_mem_cons,
            Bool.not_eq_true]
        · simp [classifyStep, hd, hs, List.forall_mem_cons,
            Bool.not_eq_true]

theorem classifyAux_snd_eq_nil_iff :
    ∀ (files : List (List String × String)) (b : AssetMap × AssetMap),
      (classifyAux files b).2 = [] ↔
        b.2 = [] ∧ ∀ p ∈ files, sdgCondB p.2 = false := by
  intro files
  induction files with
  | nil => intro b; simp [classifyAux]
  | cons p t ih =>
      intro b
      rw [classifyAux_cons, ih]
      by_cases hd : droughtCondB p.2 = true
      · simp [classifyStep, sdgCondB, hd, List.forall_mem_cons]
      · by_cases hs : sdgTokenB p.2 = true
        · simp [classifyStep, sdgCondB, hd, hs, dinsert_ne_nil,
            List.forall_mem_cons, Bool.not_eq_true]
        · simp [classifyStep, sdgCondB, hd, hs, List.forall_mem_cons,
            Bool.not_eq_true]

theorem classifyAux_snd_mem_mono {x : String} :
    ∀ (files : List (List String × String)) (b : AssetMap × AssetMap),
      x ∈ b.2.map Prod.fst → x ∈ (classifyAux files b).2.map Prod.fst := by
  intro files
  induction files with
  | nil => exact fun b h => h
  | cons p t ih =>
      intro b h
      rw [classifyAux_cons]
      apply ih
      unfold classifyStep
      split
      · exact h
      · split
        · exact mem_keys_dinsert _ _ h
        · exact h

theorem subListOf_iff (pat : List Char) :
    ∀ l : List Char, subListOf pat l = true ↔ pat <:+: l := by
  intro l
  induction l with
  | nil =>
      simp only [subListOf, List.isEmpty_iff, List.infix_nil]
  | cons c rest ih =>
      simp only [subListOf, Bool.or_eq_true, List.isPrefixOf_iff_prefix, ih,
        List.infix_cons_iff]

theorem strContains_iff (s pat : String) :
    strContains s pat = true ↔ pat.toList <:+: s.toList :=
  subListOf_iff pat.toList s.toList

/-- The drought summary filename never matches the SDG token. -/
theorem summary_not_sdg : strContains droughtSummaryName "sdg-15-3-1" = false :=
  rfl

theorem sdgCondB_eq (f : String) :
    sdgCondB f = (strContains f "sdg-15-3-1" && !strContains f "drought") := by
  by_cases h : f = droughtSummaryName
  · subst h; rfl
  · have hb : (f != droughtSummaryName) = true := by
      simp [bne_iff_ne, h]
    unfold sdgCondB droughtCondB sdgTokenB
    rw [hb, Bool.and_true]
    exact Bool.and_comm _ _

theorem classifyWalk_fst_ne_nil_iff (files : List (List String × String)) :
    (classifyWalk files).1 ≠ [] ↔
      ∃ p ∈ files, strContains p.2 "drought" = true ∧
        p.2 ≠ droughtSummaryName := by
  rw [Ne, classifyWalk, classifyAux_fst_eq_nil_iff]
  simp [droughtCondB, Bool.not_eq_false, Bool.and_eq_true, bne_iff_ne]

theorem classifyWalk_snd_ne_nil_iff (files : List (List String × String)) :
    (classifyWalk files).2 ≠ [] ↔
      ∃ p ∈ files, strContains p.2 "sdg-15-3-1" = true ∧
        strContains p.2 "drought" = false := by
  rw [Ne, classifyWalk, classifyAux_snd_eq_nil_iff]
  simp only [sdgCondB_eq]
  simp [Bool.not_eq_false, Bool.and_eq_true, Bool.not_eq_true]

theorem classifyStep_of_drought_summary (b : AssetMap × AssetMap)
    (p : List String × String) (hp : p.2 = droughtSummaryName) :
    classifyStep b p = b := by
  unfold classifyStep droughtCondB sdgTokenB
  rw [hp]
  simp [summary_not_sdg]

/-- Files named like the drought summary contribute nothing to either
bucket: filtering them away does not change the classification. -/
theorem classifyAux_filter_drought_summary :
    ∀ (files : List (List String × String)) (b : AssetMap × AssetMap),
      classifyAux (files.filter (fun p => p.2 != droughtSummaryName)) b =
        classifyAux files b := by
  intro files
  induction files with
  | nil => intro b; rfl
  | cons p t ih =>
      intro b
      by_cases hp : p.2 = droughtSummaryName
      · have hf : (p.2 != droughtSummaryName) = false := by
          simp [bne, hp]
        rw [List.filter_cons, hf]
        simp only [Bool.false_eq_true, if_false]
        rw [classifyAux_cons, classifyStep_of_drought_summary b p hp]
        exact ih b
      · have hf : (p.2 != droughtSummaryName) = true := by
          simp [bne_iff_ne, hp]
        rw [List.filter_cons, hf]
        simp only [if_pos]
        rw [classifyAux_cons, classifyAux_cons]
        exact ih (classifyStep b p)

/-- A file the `elif` branch accepts leaves its sanitized key in the SDG
bucket for good. -/
theorem classifyWalk_sdg_key (files : List (List String × String))
    (p : List String × String) (hp : p ∈ files)
    (hd : droughtCondB p.2 = false) (hs : sdgTokenB p.2 = true) :
    sanitize p.2 ∈ (classifyWalk files).2.map Prod.fst := by
  obtain ⟨s, t, rfl⟩ := List.append_of_mem hp
  rw [classifyWalk, classifyAux, List.foldl_append, List.foldl_cons]
  show sanitize p.2 ∈
    (classifyAux t (classifyStep (classifyAux s ([], [])) p)).2.map Prod.fst
  apply classifyAux_snd_mem_mono
  unfold classifyStep
  rw [hd]
  simp only [Bool.false_eq_true, if_false, hs, if_pos]
  exact self_mem_keys_dinsert _ _ _

theorem string_append_left_cancel {a b c : String}
    (h : a ++ b = a ++ c) : b = c := by
  have hd := congrArg String.data h
  rw [String.data_append, String.data_append] at hd
  have he := List.append_cancel_left hd
  cases b with
  | mk bd =>
      cases c with
      | mk cd => exact congrArg String.mk he

theorem string_append_right_cancel {a b c : String}
    (h : a ++ c = b ++ c) : a = b := by
  have hd := congrArg String.data h
  rw [String.data_append, String.data_append] at hd
  have he := List.append_cancel_right hd
  cases a with
  | mk ad =>
      cases b with
      | mk bd => exact congrArg String.mk he

theorem buildCollection_items (r : CountryRecord) :
    (buildCollection r).items =
      (if r.droughtAssets.isEmpty then [] else
        [create_country_item r.country (r.country ++ "_drought")
          ("STAC Item for " ++ r.country ++ " Drought Dataset")
          r.droughtAssets r.droughtProps]) ++
      (if r.sdgAssets.isEmpty then [] else
        [create_country_item r.country (r.country ++ "_sdg_15_3_1")
          ("STAC Item for " ++ r.country ++ " SDG 15.3.1 Dataset")
          r.sdgAssets r.sdgProps]) := rfl

theorem buildCollection_id (r : CountryRecord) :
    (buildCollection r).id = r.country ++ "-collection" := rfl

theorem scanCountry_ok_inv {c : String} {ch : List (String × FSEntry)}
    {r : CountryRecord} (h : scanCountry c ch = .ok r) :
    r.country = c ∧
    r.droughtAssets = (classifyWalk (walkFiles [c] (.dir ch))).1 ∧
    r.sdgAssets = (classifyWalk (walkFiles [c] (.dir ch))).2 := by
  unfold scanCountry at h
  obtain ⟨o, h1, h⟩ := except_bind_ok h
  obtain ⟨sd, h2, h⟩ := except_bind_ok h
  obtain ⟨dp, h3, h⟩ := except_bind_ok h
  obtain ⟨sp, h4, h⟩ := except_bind_ok h
  injection h with h
  rw [← h]
  exact ⟨rfl, rfl, rfl⟩

/-- An item with the drought item id is in the collection exactly when
the drought bucket is non-empty. -/
theorem drought_item_mem_iff (r : CountryRecord) (c : String)
    (hc : r.country = c) :
    (∃ i ∈ (buildCollection r).items, i.id = c ++ "_drought") ↔
      r.droughtAssets ≠ [] := by
  rw [buildCollection_items]
  constructor
  · rintro ⟨i, hi, hid⟩
    rcases List.mem_append.mp hi with h1 | h2
    · by_cases he : r.droughtAssets.isEmpty = true
      · rw [if_pos he] at h1
        cases h1
      · rw [if_neg he] at h1
        intro hnil
        exact he (by rw [hnil]; rfl)
    · by_cases he : r.sdgAssets.isEmpty = true
      · rw [if_pos he] at h2
        cases h2
      · rw [if_neg he] at h2
        rw [List.mem_singleton] at h2
        subst h2
        have hids : r.country ++ "_sdg_15_3_1" = c ++ "_drought" := hid
        rw [hc] at hids
        exact absurd (string_append_left_cancel hids) (by decide)
  · intro hne
    refine ⟨create_country_item r.country (r.country ++ "_drought")
      ("STAC Item for " ++ r.country ++ " Drought Dataset")
      r.droughtAssets r.droughtProps,
      List.mem_append.mpr (Or.inl ?_), ?_⟩
    · rw [if_neg (by rw [isEmpty_false_of_ne hne]; simp)]
      exact List.mem_singleton.mpr rfl
    · show r.country ++ "_drought" = c ++ "_drought"
      rw [hc]

/-- An item with the SDG item id is in the collection exactly when the
SDG bucket is non-empty. -/
theorem sdg_item_mem_iff (r : CountryRecord) (c : String)
    (hc : r.country = c) :
    (∃ i ∈ (buildCollection r).items, i.id = c ++ "_sdg_15_3_1") ↔
      r.sdgAssets ≠ [] := by
  rw [buildCollection_items]
  constructor
  · rintro ⟨i, hi, hid⟩
    rcases List.mem_append.mp hi with h1 | h2
    · by_cases he : r.droughtAssets.isEmpty = true
      · rw [if_pos he] at h1
        cases h1
      · rw [if_neg he] at h1
        rw [List.mem_singleton] at h1
        subst h1
        have hids : r.country ++ "_drought" = c ++ "_sdg_15_3_1" := hid
        rw [hc] at hids
        exact absurd (string_append_left_cancel hids) (by decide)
    · by_cases he : r.sdgAssets.isEmpty = true
      · rw [if_pos he] at h2
        cases h2
      · rw [if_neg he] at h2
        intro hnil
        exact he (by rw [hnil]; rfl)
  · intro hne
    refine ⟨create_country_item r.country (r.country ++ "_sdg_15_3_1")
      ("STAC Item for " ++ r.country ++ " SDG 15.3.1 Dataset")
      r.sdgAssets r.sdgProps,
      List.mem_append.mpr (Or.inr ?_), ?_⟩
    · rw [if_neg (by rw [isEmpty_false_of_ne hne]; simp)]
      exact List.mem_singleton.mpr rfl
    · show r.country ++ "_sdg_15_3_1" = c ++ "_sdg_15_3_1"
      rw [hc]

theorem classifyAux_nodup :
    ∀ (files : List (List String × String)) (b : AssetMap × AssetMap),
      (b.1.map Prod.fst).Nodup → (b.2.map Prod.fst).Nodup →
      ((classifyAux files b).1.map Prod.fst).Nodup ∧
      ((classifyAux files b).2.map Prod.fst).Nodup := by
  intro files
  induction files with
  | nil => exact fun b h1 h2 => ⟨h1, h2⟩
  | cons p t ih =>
      intro b h1 h2
      rw [classifyAux_cons]
      unfold classifyStep
      split
      · exact ih _ (nodup_keys_dinsert _ _ h1) h2
      · split
        · exact ih _ h1 (nodup_keys_dinsert _ _ h2)
        · exact ih _ h1 h2

theorem classifyWalk_append_drought (files : List (List String × String))
    (dirs : List String) (fname : String) (h : droughtCondB fname = true) :
    ((classifyWalk (files ++ [(dirs, fname)])).1).lookup (sanitize fname) =
      some (relPath dirs fname) := by
  rw [classifyWalk, classifyAux, List.foldl_append, List.foldl_cons,
    List.foldl_nil]
  unfold classifyStep
  simp only [h, if_pos]
  exact lookup_dinsert _ _ _

theorem classifyWalk_append_sdg (files : List (List String × String))
    (dirs : List String) (fname : String) (h : sdgCondB fname = true) :
    ((classifyWalk (files ++ [(dirs, fname)])).2).lookup (sanitize fname) =
      some (relPath dirs fname) := by
  rw [sdgCondB, Bool.and_eq_true, Bool.not_eq_true'] at h
  rw [classifyWalk, classifyAux, List.foldl_append, List.foldl_cons,
    List.foldl_nil]
  unfold classifyStep
  simp only [h.1, h.2, Bool.false_eq_true, if_false, if_pos]
  exact lookup_dinsert _ _ _

/-- C2 counterexample: the located SDG summary file is classified into
the SDG bucket, contradicting the claim that neither summary file ever
appears in an AssetMap. -/
theorem claim_C2_counterexample :
    findSdgSummary (sdgSummaryOnlyCountry.map Prod.fst) =
      some "sdg-15-3-1-summary_0.json" ∧
    scanCountry "Kenya" sdgSummaryOnlyCountry = .ok
      ⟨"Kenya", [], [("sdg-15-3-1-summary_0_json",
        "Kenya/sdg-15-3-1-summary_0.json")], [], []⟩ :=
  ⟨rfl, rfl⟩

/-- C2 amended: files named like the drought summary are never
classified (filtering them away changes nothing), but the located SDG
summary is not excluded: any walked file with the SDG summary name shape
(and without "drought" in its name) ends up in the SDG AssetMap. -/
theorem claim_C2_summary_exclusion :
    (∀ (files : List (List String × String)) (b : AssetMap × AssetMap),
      classifyAux (files.filter (fun p => p.2 != droughtSummaryName)) b =
        classifyAux files b) ∧
    (∀ (files : List (List String × String)) (p : List String × String),
      p ∈ files → strStartsWith p.2 "sdg-15-3-1-summary_" = true →
      strEndsWith p.2 ".json" = true → strContains p.2 "drought" = false →
      ((classifyWalk files).2.lookup (sanitize p.2)).isSome = true) := by
  constructor
  · exact classifyAux_filter_drought_summary
  · intro files p hp hpre _ hdr
    rw [lookup_isSome_iff]
    apply classifyWalk_sdg_key files p hp
    · simp [droughtCondB, hdr]
    · rw [sdgTokenB, strContains_iff]
      have h1 : "sdg-15-3-1".toList <+: "sdg-15-3-1-summary_".toList := by
        decide
      have h2 : "sdg-15-3-1-summary_".toList <+: p.2.toList :=
        List.isPrefixOf_iff_prefix.mp hpre
      exact List.IsPrefix.isInfix (h1.trans h2)

/-- C2 witness: the amended theorem at a one-file country consisting of
the SDG summary alone. -/
theorem claim_C2_summary_exclusion_witness :
    classifyAux ([(["Kenya"], droughtSummaryName)].filter
      (fun p => p.2 != droughtSummaryName)) ([], []) =
      classifyAux [(["Kenya"], droughtSummaryName)] ([], []) ∧
    ((classifyWalk [(["Kenya"], "sdg-15-3-1-summary_0.json")]).2.lookup
      (sanitize "sdg-15-3-1-summary_0.json")).isSome = true :=
  ⟨claim_C2_summary_exclusion.1 _ _,
   claim_C2_summary_exclusion.2 [(["Kenya"], "sdg-15-3-1-summary_0.json")]
     (["Kenya"], "sdg-15-3-1-summary_0.json")
     (List.mem_singleton.mpr rfl) rfl rfl rfl⟩

/-- C3 counterexample: a file whose name holds both tokens matches the
SDG classification rule yet produces a drought item and no SDG item. -/
theorem claim_C3_counterexample :
    sdgTokenB "sdg-15-3-1-drought.tif" = true ∧
    scanCountry "Kenya" bothTokensCountry = .ok
      ⟨"Kenya", [("sdg-15-3-1-drought_tif", "Kenya/sdg-15-3-1-drought.tif")],
       [], [], []⟩ ∧
    (buildCollection ⟨"Kenya",
      [("sdg-15-3-1-drought_tif", "Kenya/sdg-15-3-1-drought.tif")],
      [], [], []⟩).items.map StacItem.id = ["Kenya_drought"] :=
  ⟨rfl, rfl, rfl⟩

/-- C3 amended: an SDG item exists iff some file in the walked subtree
contains the SDG token and does not contain "drought" (the drought rule
is tried first). -/
theorem claim_C3_sdg_item_iff :
    ∀ (c : String) (ch : List (String × FSEntry)) (r : CountryRecord),
      scanCountry c ch = .ok r →
      ((∃ i ∈ (buildCollection r).items, i.id = c ++ "_sdg_15_3_1") ↔
        ∃ p ∈ walkFiles [c] (.dir ch),
          strContains p.2 "sdg-15-3-1" = true ∧
          strContains p.2 "drought" = false) := by
  intro c ch r h
  obtain ⟨hc, _, hs⟩ := scanCountry_ok_inv h
  rw [sdg_item_mem_iff r c hc, hs, classifyWalk_snd_ne_nil_iff]

/-- C3 witness: the amended iff at a country holding one SDG-named
file. -/
theorem claim_C3_sdg_item_iff_witness :
    (∃ i ∈ (buildCollection ⟨"Kenya", [],
        [("sdg-15-3-1-summary_0_json", "Kenya/sdg-15-3-1-summary_0.json")],
        [], []⟩).items, i.id = "Kenya" ++ "_sdg_15_3_1") ↔
      ∃ p ∈ walkFiles ["Kenya"] (.dir sdgSummaryOnlyCountry),
        strContains p.2 "sdg-15-3-1" = true ∧
        strContains p.2 "drought" = false :=
  claim_C3_sdg_item_iff "Kenya" sdgSummaryOnlyCountry _ rfl

/-- C4: a drought item exists iff some file in the walked subtree has
"drought" in its name and is not named like the drought summary. -/
theorem claim_C4_drought_item_iff :
    ∀ (c : String) (ch : List (String × FSEntry)) (r : CountryRecord),
      scanCountry c ch = .ok r →
      ((∃ i ∈ (buildCollection r).items, i.id = c ++ "_drought") ↔
        ∃ p ∈ walkFiles [c] (.dir ch),
          strContains p.2 "drought" = true ∧ p.2 ≠ droughtSummaryName) := by
  intro c ch r h
  obtain ⟨hc, hd, _⟩ := scanCountry_ok_inv h
  rw [drought_item_mem_iff r c hc, hd, classifyWalk_fst_ne_nil_iff]

/-- C4 witness: the iff at a country with one drought data file beside a
(malformed) drought summary. -/
theorem claim_C4_drought_item_iff_witness :
    (∃ i ∈ (buildCollection ⟨"Kenya",
        [("drought_tif", "Kenya/drought.tif")], [], [], []⟩).items,
      i.id = "Kenya" ++ "_drought") ↔
      ∃ p ∈ walkFiles ["Kenya"] (.dir malformedSummaryCountry),
        strContains p.2 "drought" = true ∧ p.2 ≠ droughtSummaryName :=
  claim_C4_drought_item_iff "Kenya" malformedSummaryCountry _ rfl

/-- C9: asset-key sanitization maps the example filename as claimed and
is idempotent on every string. -/
theorem claim_C9_sanitize_idempotent :
    sanitize "drought_index.2020.tif" = "drought_index_2020_tif" ∧
    ∀ s : String, sanitize (sanitize s) = sanitize s := by
  constructor
  · rfl
  · intro s
    unfold sanitize
    congr 1
    show ((s.data.map _).map _) = s.data.map _
    rw [List.map_map]
    apply List.map_congr_left
    intro c _
    by_cases hc : c = '.' <;> simp [Function.comp, hc]

/-- C10: asset keys depend on the filename alone, each bucket holds at
most one entry per sanitized filename, and the file walked last wins. -/
theorem claim_C10_key_overwrite :
    (∀ files : List (List String × String),
      ((classifyWalk files).1.map Prod.fst).Nodup ∧
      ((classifyWalk files).2.map Prod.fst).Nodup) ∧
    (∀ (files : List (List String × String)) (dirs : List String)
        (fname : String), droughtCondB fname = true →
      ((classifyWalk (files ++ [(dirs, fname)])).1).lookup (sanitize fname) =
        some (relPath dirs fname)) ∧
    (∀ (files : List (List String × String)) (dirs : List String)
        (fname : String), sdgCondB fname = true →
      ((classifyWalk (files ++ [(dirs, fname)])).2).lookup (sanitize fname) =
        some (relPath dirs fname)) :=
  ⟨fun files => classifyAux_nodup files ([], []) List.nodup_nil List.nodup_nil,
   classifyWalk_append_drought, classifyWalk_append_sdg⟩

/-- C10 witness: two files with the same name in different
subdirectories; the later one's relative path is the one kept. -/
theorem claim_C10_key_overwrite_witness :
    (((classifyWalk [(["Kenya", "a"], "drought.tif"),
        (["Kenya", "b"], "drought.tif")]).1.map Prod.fst).Nodup ∧
      ((classifyWalk [(["Kenya", "a"], "drought.tif"),
        (["Kenya", "b"], "drought.tif")]).2.map Prod.fst).Nodup) ∧
    ((classifyWalk ([(["Kenya", "a"], "drought.tif")] ++
        [(["Kenya", "b"], "drought.tif")])).1).lookup
      (sanitize "drought.tif") = some (relPath ["Kenya", "b"] "drought.tif") ∧
    ((classifyWalk ([] ++ [(["Kenya"], "sdg-15-3-1.tif")])).2).lookup
      (sanitize "sdg-15-3-1.tif") = some (relPath ["Kenya"] "sdg-15-3-1.tif") :=
  ⟨claim_C10_key_overwrite.1 _,
   claim_C10_key_overwrite.2.1 [(["Kenya", "a"], "drought.tif")]
     ["Kenya", "b"] "drought.tif" rfl,
   claim_C10_key_overwrite.2.2 [] ["Kenya"] "sdg-15-3-1.tif" rfl⟩

/-- C5: a successful run yields exactly one collection per immediate
subdirectory of the data root, in order, with the id derived from the
country name; distinct country names give distinct collection ids. -/
theorem claim_C5_one_collection_per_country :
    ∀ (ch : List (String × FSEntry)) (cat : StacCatalog),
      mainRun (some (.dir ch)) = .ok cat →
      cat.collections.map StacCollection.id =
        (dirsOf ch).map (fun p => p.1 ++ "-collection") ∧
      (((dirsOf ch).map Prod.fst).Nodup →
        (cat.collections.map StacCollection.id).Nodup) := by
  intro ch cat h
  unfold mainRun at h
  obtain ⟨records, hrec, h⟩ := except_bind_ok h
  injection h with h
  have hf : List.Forall₂ (fun p r => scanCountry p.1 p.2 = .ok r)
      (dirsOf ch) records := mapM_ok_forall₂ hrec
  have hmap : cat.collections.map StacCollection.id =
      (dirsOf ch).map (fun p => p.1 ++ "-collection") := by
    rw [← h]
    show (records.map buildCollection).map StacCollection.id =
      (dirsOf ch).map (fun p => p.1 ++ "-collection")
    rw [List.map_map]
    apply forall₂_map_eq hf
    intro p r hr
    show (buildCollection r).id = p.1 ++ "-collection"
    rw [buildCollection_id, (scanCountry_ok_inv hr).1]
  refine ⟨hmap, fun hnd => ?_⟩
  rw [hmap]
  have hsplit : (dirsOf ch).map (fun p => p.1 ++ "-collection") =
      ((dirsOf ch).map Prod.fst).map (fun c => c ++ "-collection") := by
    rw [List.map_map]
    rfl
  rw [hsplit]
  exact List.Nodup.map (fun a b hab => string_append_right_cancel hab) hnd

/-- C5 witness: a run on a two-country root (one country empty) builds
exactly the two collections, with distinct derived ids. -/
theorem claim_C5_one_collection_per_country_witness :
    ∃ cat, mainRun (some (.dir twoCountryChildren)) = .ok cat ∧
      cat.collections.map StacCollection.id =
        (dirsOf twoCountryChildren).map (fun p => p.1 ++ "-collection") ∧
      (cat.collections.map StacCollection.id).Nodup := by
  refine ⟨_, rfl, ?_, ?_⟩
  · exact (claim_C5_one_collection_per_country twoCountryChildren _ rfl).1
  · exact (claim_C5_one_collection_per_country twoCountryChildren _ rfl).2
      (by decide)

/-- C7 counterexample: with a malformed drought summary the drought
item's properties are the empty mapping, which lacks the "id" key that
an all-null default mapping would carry. -/
theorem claim_C7_counterexample :
    scanCountry "Kenya" malformedSummaryCountry = .ok
      ⟨"Kenya", [("drought_tif", "Kenya/drought.tif")], [], [], []⟩ ∧
    (buildCollection ⟨"Kenya", [("drought_tif", "Kenya/drought.tif")],
      [], [], []⟩).items.map StacItem.properties = [[]] ∧
    ([] : List (String × JValue)).lookup "id" = none :=
  ⟨rfl, rfl, rfl⟩

/-- C7 amended: a malformed summary is read as a logged parse failure
yielding no document, a missing/failed document extracts to the empty
mapping `{}` (not an all-null mapping), and the scan still yields every
country. -/
theorem claim_C7_malformed_summary :
    read_summary_json (some (.file (.error ()))) = .ok .parseFailed ∧
    docOf .parseFailed = .jnull ∧
    (∀ d, isFalsy d = true →
      extract_properties_from_drought_summary d = .ok []) ∧
    ∃ rs, scan_data_folder (some malformedSummaryRoot) = .ok rs ∧
      rs.map CountryRecord.country = ["Kenya", "Uganda"] ∧
      rs.map CountryRecord.droughtProps = [[], []] := by
  refine ⟨rfl, rfl, fun d h => ?_, ⟨_, rfl, rfl, rfl⟩⟩
  simp [extract_properties_from_drought_summary, h]

/-- C7 witness: the falsy-document clause of the amended theorem applied
to the null document. -/
theorem claim_C7_malformed_summary_witness :
    extract_properties_from_drought_summary .jnull = .ok [] :=
  claim_C7_malformed_summary.2.2.1 .jnull rfl

/-- C8: a missing data root yields the empty sequence, and a root with
no country subdirectories yields a catalog with no collections. -/
theorem claim_C8_missing_or_empty_root :
    scan_data_folder none = .ok [] ∧
    ∀ ch : List (String × FSEntry), dirsOf ch = [] →
      ∃ cat, mainRun (some (.dir ch)) = .ok cat ∧ cat.collections = [] := by
  refine ⟨rfl, fun ch h => ?_⟩
  refine ⟨{ create_root_catalog with collections := [] }, ?_, rfl⟩
  unfold mainRun
  have hscan : scan_data_folder (some (.dir ch)) = .ok [] := by
    show (dirsOf ch).mapM (fun p => scanCountry p.1 p.2) = .ok []
    rw [h]
    rfl
  rw [hscan, ok_bind]
  rfl

/-- C8 witness: a root whose only entry is a regular file has no country
subdirectories. -/
theorem claim_C8_missing_or_empty_root_witness :
    ∃ cat, mainRun (some (.dir [("a.txt", FSEntry.file (.error ()))])) =
      .ok cat ∧ cat.collections = [] :=
  claim_C8_missing_or_empty_root.2 _ rfl

end TrendsEarthStac
